import Mathlib

set_option maxHeartbeats 1000000

/-!
Verification of the week-range parser of menu_parser.py.

The core under study is parse_weeks, which scans a free-text string for
occurrences of the pattern Del (\d{1,2}) al (\d{1,2})/(\d{2}), and turns
each match into a pair of ISO-8601 dates, handling an academic-year
convention (months before July belong to the next calendar year) and
cross-month ranges (start day greater than end day).  The regex scan,
the datetime.date constructor with its validity check, the isoformat
rendering and the loop of parse_weeks are embedded below; exceptions of
the date constructor are modelled by Option.
-/

/-- Numeric value of a decimal digit character. -/
def digitVal (c : Char) : Nat := c.toNat - 48

/-- Drop an expected literal from the front of the character stream, failing
when the stream does not start with it. -/
def dropLit : List Char → List Char → Option (List Char)
  | [], s => some s
  | _ :: _, [] => none
  | p :: ps, c :: cs => if c = p then dropLit ps cs else none

/-- Greedy match of one or two decimal digits followed by a required literal,
with backtracking from two digits to one, exactly as the regex fragment
(\d{1,2}) followed by a literal behaves. -/
def digits12Then (lit : List Char) : List Char → Option (Nat × List Char)
  | [] => none
  | c1 :: rest1 =>
    if c1.isDigit then
      match rest1 with
      | c2 :: rest2 =>
        if c2.isDigit then
          match dropLit lit rest2 with
          | some r => some (10 * digitVal c1 + digitVal c2, r)
          | none =>
            match dropLit lit rest1 with
            | some r => some (digitVal c1, r)
            | none => none
        else
          match dropLit lit rest1 with
          | some r => some (digitVal c1, r)
          | none => none
      | [] =>
        match dropLit lit rest1 with
        | some r => some (digitVal c1, r)
        | none => none
    else none

/-- Match exactly two decimal digits, as the regex fragment (\d{2}) does. -/
def digits2 : List Char → Option (Nat × List Char)
  | c1 :: c2 :: rest =>
    if c1.isDigit && c2.isDigit then some (10 * digitVal c1 + digitVal c2, rest)
    else none
  | _ => none

/-- Try to match the whole pattern Del (\d{1,2}) al (\d{1,2})/(\d{2}) at the
head of the stream; on success return the three captured numbers together
with the remainder of the stream after the match. -/
def matchHere (s : List Char) : Option ((Nat × Nat × Nat) × List Char) :=
  match dropLit ('D' :: 'e' :: 'l' :: ' ' :: []) s with
  | none => none
  | some s1 =>
    match digits12Then (' ' :: 'a' :: 'l' :: ' ' :: []) s1 with
    | none => none
    | some (d1, s2) =>
      match digits12Then ('/' :: []) s2 with
      | none => none
      | some (d2, s3) =>
        match digits2 s3 with
        | none => none
        | some (m, s4) => some ((d1, d2, m), s4)

/-- Fuel-indexed scanning loop of re.findall: try a match at the current
position, emit it and continue after it, otherwise advance one character.
The fuel only bounds the recursion depth; fuel equal to the length of the
stream is always sufficient because every step consumes at least one
character of the stream. -/
def findAllFuel : Nat → List Char → List (Nat × Nat × Nat)
  | 0, _ => []
  | fuel + 1, s =>
    match matchHere s with
    | some (caps, rest) => caps :: findAllFuel fuel rest
    | none =>
      match s with
      | [] => []
      | _ :: rest => findAllFuel fuel rest

/-- All non-overlapping left-to-right matches of the week pattern in the
stream, in input order, as re.findall produces them. -/
def findAll (s : List Char) : List (Nat × Nat × Nat) := findAllFuel s.length s

/-- Gregorian leap-year test, as the datetime module uses. -/
def leapN (y : Nat) : Bool := decide (y % 4 = 0 ∧ (y % 100 ≠ 0 ∨ y % 400 = 0))

/-- Number of days in a month, as the datetime module uses. -/
def daysInMonth (y m : Nat) : Nat :=
  if m = 2 then (if leapN y then 29 else 28)
  else if m = 4 ∨ m = 6 ∨ m = 9 ∨ m = 11 then 30
  else 31

/-- Validity of a (year, month, day) triple for the datetime.date
constructor: MINYEAR is 1 and MAXYEAR is 9999. -/
def dateValid (y m d : Nat) : Prop :=
  1 ≤ y ∧ y ≤ 9999 ∧ 1 ≤ m ∧ m ≤ 12 ∧ 1 ≤ d ∧ d ≤ daysInMonth y m

instance (y m d : Nat) : Decidable (dateValid y m d) := by
  unfold dateValid; infer_instance

/-- A calendar date as stored by datetime.date after a successful
construction. -/
structure Date where
  year : Nat
  month : Nat
  day : Nat
deriving DecidableEq, Repr

/-- The datetime.date constructor: the year argument is an integer, and the
constructor raises ValueError on any out-of-range component; the exception
is modelled as none. -/
def mkDate (y : Int) (m d : Nat) : Option Date :=
  if 1 ≤ y ∧ dateValid y.toNat m d then some ⟨y.toNat, m, d⟩ else none

/-- Decimal digit character. -/
def dg (n : Nat) : Char := Char.ofNat (48 + n)

/-- Four zero-padded decimal digits, the way %04d formats a year of at most
9999. -/
def pad4 (n : Nat) : List Char :=
  [dg (n / 1000), dg (n / 100 % 10), dg (n / 10 % 10), dg (n % 10)]

/-- Two zero-padded decimal digits, the way %02d formats months and days. -/
def pad2 (n : Nat) : List Char := [dg (n / 10), dg (n % 10)]

/-- ISO-8601 rendering YYYY-MM-DD of a date, as date.isoformat produces for
years between 1 and 9999. -/
def isoDate (y m d : Nat) : String := ⟨pad4 y ++ '-' :: (pad2 m ++ '-' :: pad2 d)⟩

/-- ISO-8601 rendering of a stored date. -/
def isoOfDate (a : Date) : String := isoDate a.year a.month a.day

/-- One parsed week range: the dictionary with keys start and end that
parse_weeks appends for each match. -/
structure WeekRange where
  start : String
  «end» : String
deriving DecidableEq, Repr

/-- Body of the loop of parse_weeks for a single match, after the
academic-year update of the year variable: builds the start and end dates,
handling the cross-month case start_day > end_day, and renders both in ISO
format; a ValueError of the date constructor is none. -/
def processMatch (year : Int) (start_day end_day month : Nat) : Option WeekRange :=
  if start_day > end_day then
    match mkDate (if month = 1 then year - 1 else year) (if month = 1 then 12 else month - 1)
            start_day,
          mkDate year month end_day with
    | some s, some e => some ⟨isoOfDate s, isoOfDate e⟩
    | _, _ => none
  else
    match mkDate year month start_day, mkDate year month end_day with
    | some s, some e => some ⟨isoOfDate s, isoOfDate e⟩
    | _, _ => none

/-- The loop of parse_weeks over the matches.  Note that the source
reassigns the year variable on every iteration (year = year if month >= 7
else year + 1), so the updated year is threaded into all later
iterations. -/
def parseWeeksLoop : List (Nat × Nat × Nat) → Int → Option (List WeekRange)
  | [], _ => some []
  | (start_day, end_day, month) :: rest, year =>
    match processMatch (if 7 ≤ month then year else year + 1) start_day end_day month,
          parseWeeksLoop rest (if 7 ≤ month then year else year + 1) with
    | some w, some tail => some (w :: tail)
    | _, _ => none

/-- parse_weeks from menu_parser.py: find all occurrences of the pattern
Del (\d{1,2}) al (\d{1,2})/(\d{2}) in the input and turn each into a week
range; an invalid constructed date aborts the whole call with an exception,
modelled as none. -/
def parse_weeks (weeks_str : String) (year : Int) : Option (List WeekRange) :=
  parseWeeksLoop (findAll weeks_str.toList) year

/-- Every match of the list, processed with the threaded year exactly as the
loop of parse_weeks threads it, yields valid dates. -/
def allMatchesValid : List (Nat × Nat × Nat) → Int → Bool
  | [], _ => true
  | (start_day, end_day, month) :: rest, year =>
    (processMatch (if 7 ≤ month then year else year + 1) start_day end_day month).isSome &&
      allMatchesValid rest (if 7 ≤ month then year else year + 1)

/-- Parsing an ISO-8601 YYYY-MM-DD string back into a calendar date, as
datetime.date.fromisoformat does on the strings emitted here; fails on a
malformed string or an invalid calendar date. -/
def fromIso (s : String) : Option Date :=
  match s.toList with
  | [y1, y2, y3, y4, h1, m1, m2, h2, d1, d2] =>
    if (y1.isDigit && y2.isDigit && y3.isDigit && y4.isDigit &&
        (h1 == '-') && m1.isDigit && m2.isDigit && (h2 == '-') &&
        d1.isDigit && d2.isDigit) then
      let y := 1000 * digitVal y1 + 100 * digitVal y2 + 10 * digitVal y3 + digitVal y4
      let m := 10 * digitVal m1 + digitVal m2
      let d := 10 * digitVal d1 + digitVal d2
      if dateValid y m d then some ⟨y, m, d⟩ else none
    else none
  | _ => none

/-- Days in the full years before year y of the proleptic Gregorian
calendar. -/
def daysBeforeYear (y : Nat) : Nat :=
  365 * (y - 1) + (y - 1) / 4 - (y - 1) / 100 + (y - 1) / 400

/-- Days in the full months of year y before month m. -/
def daysBeforeMonth (y m : Nat) : Nat :=
  let L := if leapN y then 1 else 0
  match m with
  | 2 => 31
  | 3 => 59 + L
  | 4 => 90 + L
  | 5 => 120 + L
  | 6 => 151 + L
  | 7 => 181 + L
  | 8 => 212 + L
  | 9 => 243 + L
  | 10 => 273 + L
  | 11 => 304 + L
  | 12 => 334 + L
  | _ => 0

/-- Day number of a date counted from the epoch of the proleptic Gregorian
calendar; differences of this count are differences in days. -/
def rataDie (a : Date) : Nat :=
  daysBeforeYear a.year + daysBeforeMonth a.year a.month + a.day

example : parse_weeks "Del 9 al 12/09" 2025 = some [⟨"2025-09-09", "2025-09-12"⟩] := by decide

example : parse_weeks "Del 9 al 12/09 Del 6 al 10/10" 2025 =
    some [⟨"2025-09-09", "2025-09-12"⟩, ⟨"2025-10-06", "2025-10-10"⟩] := by decide

example : parse_weeks "Del 1 al 5/01" 2025 = some [⟨"2026-01-01", "2026-01-05"⟩] := by decide

example : parse_weeks "Del 29 al 3/10" 2025 = some [⟨"2025-09-29", "2025-10-03"⟩] := by decide

example : parse_weeks "" 2025 = some [] := by decide

example : parse_weeks "No valid patterns here" 2025 = some [] := by decide

/-! ### Digit characters -/

lemma dg_lt_dg : ∀ a b : Fin 10, a.val < b.val → dg a.val < dg b.val := by decide

lemma dg_lt {a b : Nat} (ha : a ≤ 9) (hb : b ≤ 9) (h : a < b) : dg a < dg b :=
  dg_lt_dg ⟨a, by omega⟩ ⟨b, by omega⟩ h

lemma dg_isDigit_fin : ∀ a : Fin 10, (dg a.val).isDigit = true := by decide

lemma dg_isDigit {a : Nat} (ha : a ≤ 9) : (dg a).isDigit = true := dg_isDigit_fin ⟨a, by omega⟩

lemma digitVal_dg_fin : ∀ a : Fin 10, digitVal (dg a.val) = a.val := by decide

lemma digitVal_dg {a : Nat} (ha : a ≤ 9) : digitVal (dg a) = a := digitVal_dg_fin ⟨a, by omega⟩

/-! ### Lexicographic comparison of rendered dates -/

lemma pad2_lt {m1 m2 : Nat} (hm1 : m1 ≤ 99) (hm2 : m2 ≤ 99) (h : m1 < m2)
    (r1 r2 : List Char) : (pad2 m1 ++ r1) < (pad2 m2 ++ r2) := by
  simp only [pad2, List.cons_append, List.nil_append]
  have hsplit : m1 / 10 < m2 / 10 ∨ (m1 / 10 = m2 / 10 ∧ m1 % 10 < m2 % 10) := by omega
  rcases hsplit with h1 | ⟨h1, h2⟩
  · exact List.Lex.rel (dg_lt (by omega) (by omega) h1)
  · rw [h1]
    exact List.Lex.cons (List.Lex.rel (dg_lt (by omega) (by omega) h2))

lemma pad4_lt {y1 y2 : Nat} (hy1 : y1 ≤ 9999) (hy2 : y2 ≤ 9999) (h : y1 < y2)
    (r1 r2 : List Char) : (pad4 y1 ++ r1) < (pad4 y2 ++ r2) := by
  simp only [pad4, List.cons_append, List.nil_append]
  have hsplit : y1 / 1000 < y2 / 1000 ∨ (y1 / 1000 = y2 / 1000 ∧
      (y1 / 100 % 10 < y2 / 100 % 10 ∨ (y1 / 100 % 10 = y2 / 100 % 10 ∧
      (y1 / 10 % 10 < y2 / 10 % 10 ∨ (y1 / 10 % 10 = y2 / 10 % 10 ∧ y1 % 10 < y2 % 10))))) := by
    omega
  rcases hsplit with h1 | ⟨h1, h2 | ⟨h2, h3 | ⟨h3, h4⟩⟩⟩
  · exact List.Lex.rel (dg_lt (by omega) (by omega) h1)
  · rw [h1]
    exact List.Lex.cons (List.Lex.rel (dg_lt (by omega) (by omega) h2))
  · rw [h1, h2]
    exact List.Lex.cons (List.Lex.cons (List.Lex.rel (dg_lt (by omega) (by omega) h3)))
  · rw [h1, h2, h3]
    exact List.Lex.cons (List.Lex.cons (List.Lex.cons
      (List.Lex.rel (dg_lt (by omega) (by omega) h4))))

lemma isoDate_lt_year {y1 y2 m1 m2 d1 d2 : Nat} (hy1 : y1 ≤ 9999) (hy2 : y2 ≤ 9999)
    (h : y1 < y2) : isoDate y1 m1 d1 < isoDate y2 m2 d2 := by
  rw [String.lt_iff_toList_lt]
  show (pad4 y1 ++ '-' :: (pad2 m1 ++ '-' :: pad2 d1)) <
    (pad4 y2 ++ '-' :: (pad2 m2 ++ '-' :: pad2 d2))
  exact pad4_lt hy1 hy2 h _ _

lemma isoDate_lt_month {y m1 m2 d1 d2 : Nat} (hm1 : m1 ≤ 99) (hm2 : m2 ≤ 99)
    (h : m1 < m2) : isoDate y m1 d1 < isoDate y m2 d2 := by
  rw [String.lt_iff_toList_lt]
  show (pad4 y ++ '-' :: (pad2 m1 ++ '-' :: pad2 d1)) <
    (pad4 y ++ '-' :: (pad2 m2 ++ '-' :: pad2 d2))
  simp only [pad4, List.cons_append, List.nil_append]
  exact List.Lex.cons (List.Lex.cons (List.Lex.cons (List.Lex.cons
    (List.Lex.cons (pad2_lt hm1 hm2 h _ _)))))

lemma isoDate_lt_day {y m d1 d2 : Nat} (hd1 : d1 ≤ 99) (hd2 : d2 ≤ 99)
    (h : d1 < d2) : isoDate y m d1 < isoDate y m d2 := by
  rw [String.lt_iff_toList_lt]
  show (pad4 y ++ '-' :: (pad2 m ++ '-' :: pad2 d1)) <
    (pad4 y ++ '-' :: (pad2 m ++ '-' :: pad2 d2))
  simp only [pad4, pad2, List.cons_append, List.nil_append]
  have hsplit : d1 / 10 < d2 / 10 ∨ (d1 / 10 = d2 / 10 ∧ d1 % 10 < d2 % 10) := by omega
  rcases hsplit with h1 | ⟨h1, h2⟩
  · exact List.Lex.cons (List.Lex.cons (List.Lex.cons (List.Lex.cons (List.Lex.cons
      (List.Lex.cons (List.Lex.cons (List.Lex.cons
      (List.Lex.rel (dg_lt (by omega) (by omega) h1)))))))))
  · rw [h1]
    exact List.Lex.cons (List.Lex.cons (List.Lex.cons (List.Lex.cons (List.Lex.cons
      (List.Lex.cons (List.Lex.cons (List.Lex.cons (List.Lex.cons
      (List.Lex.rel (dg_lt (by omega) (by omega) h2))))))))))

lemma isoDate_le_of {y1 y2 m1 m2 d1 d2 : Nat} (hy1 : y1 ≤ 9999) (hy2 : y2 ≤ 9999)
    (hm1 : m1 ≤ 99) (hm2 : m2 ≤ 99) (hd1 : d1 ≤ 99) (hd2 : d2 ≤ 99)
    (h : y1 < y2 ∨ (y1 = y2 ∧ (m1 < m2 ∨ (m1 = m2 ∧ d1 ≤ d2)))) :
    isoDate y1 m1 d1 ≤ isoDate y2 m2 d2 := by
  rcases h with h | ⟨rfl, h | ⟨rfl, h⟩⟩
  · exact le_of_lt (isoDate_lt_year hy1 hy2 h)
  · exact le_of_lt (isoDate_lt_month hm1 hm2 h)
  · rcases eq_or_lt_of_le h with rfl | h
    · exact le_refl _
    · exact le_of_lt (isoDate_lt_day hd1 hd2 h)

/-! ### Calendar arithmetic -/

lemma mkDate_some {y : Int} {m d : Nat} {a : Date} (h : mkDate y m d = some a) :
    1 ≤ y ∧ dateValid y.toNat m d ∧ a = ⟨y.toNat, m, d⟩ := by
  unfold mkDate at h
  split at h
  · rename_i hc
    injection h with h
    exact ⟨hc.1, hc.2, h.symm⟩
  · cases h

lemma daysInMonth_le_31 (y m : Nat) : daysInMonth y m ≤ 31 := by
  unfold daysInMonth
  split
  · split <;> omega
  · split <;> omega

lemma daysInMonth_dec (y : Nat) : daysInMonth y 12 = 31 := by
  simp [daysInMonth]

lemma daysBeforeMonth_one (y : Nat) : daysBeforeMonth y 1 = 0 := rfl

lemma daysBeforeMonth_dec (y : Nat) :
    daysBeforeMonth y 12 = 334 + (if leapN y then 1 else 0) := rfl

lemma daysBeforeMonth_succ (y : Nat) {m : Nat} (h2 : 2 ≤ m) (h12 : m ≤ 12) :
    daysBeforeMonth y m = daysBeforeMonth y (m - 1) + daysInMonth y (m - 1) := by
  interval_cases m <;> cases h : leapN y <;>
    simp [daysBeforeMonth, daysInMonth, h]

lemma daysBeforeYear_succ {y : Nat} (h : 2 ≤ y) :
    daysBeforeYear y = daysBeforeYear (y - 1) + 365 + (if leapN (y - 1) then 1 else 0) := by
  have hl : leapN (y - 1) = true ↔
      ((y - 1) % 4 = 0 ∧ ((y - 1) % 100 ≠ 0 ∨ (y - 1) % 400 = 0)) := by
    simp [leapN]
  unfold daysBeforeYear
  split
  · rename_i hlp
    rw [hl] at hlp
    omega
  · rename_i hlp
    rw [hl] at hlp
    omega

/-! ### Inversion of a processed match -/

lemma processMatch_shape {year : Int} {sd ed m : Nat} {w : WeekRange}
    (h : processMatch year sd ed m = some w) :
    ∃ a b : Date, dateValid a.year a.month a.day ∧ dateValid b.year b.month b.day ∧
      w.start = isoOfDate a ∧ w.«end» = isoOfDate b ∧
      (a.year < b.year ∨ (a.year = b.year ∧
        (a.month < b.month ∨ (a.month = b.month ∧ a.day ≤ b.day)))) ∧
      rataDie a ≤ rataDie b ∧ rataDie b - rataDie a ≤ 30 := by
  unfold processMatch at h
  split at h
  · rename_i hgt
    by_cases hm : m = 1
    · simp only [if_pos hm] at h
      split at h
      · rename_i s e hs he
        injection h with h
        subst h
        obtain ⟨hy1, hv1, hs1⟩ := mkDate_some hs
        obtain ⟨hy2, hv2, hs2⟩ := mkDate_some he
        subst hs1
        subst hs2
        obtain ⟨ha1, ha2, ha3, ha4, ha5, ha6⟩ := hv1
        obtain ⟨hb1, hb2, hb3, hb4, hb5, hb6⟩ := hv2
        rw [daysInMonth_dec] at ha6
        have hY : (year - 1).toNat = year.toNat - 1 := by omega
        have hY2 : 2 ≤ year.toNat := by omega
        have hsucc := daysBeforeYear_succ hY2
        refine ⟨_, _, ⟨ha1, ha2, ha3, ha4, ha5, by rw [daysInMonth_dec]; exact ha6⟩,
          ⟨hb1, hb2, hb3, hb4, hb5, hb6⟩, rfl, rfl,
          Or.inl (show (year - 1).toNat < year.toNat by omega), ?_, ?_⟩
        · show daysBeforeYear (year - 1).toNat + daysBeforeMonth (year - 1).toNat 12 + sd ≤
            daysBeforeYear year.toNat + daysBeforeMonth year.toNat m + ed
          rw [hm, daysBeforeMonth_one, daysBeforeMonth_dec, hY, hsucc]
          generalize (if leapN (year.toNat - 1) then (1 : Nat) else 0) = L
          omega
        · show daysBeforeYear year.toNat + daysBeforeMonth year.toNat m + ed -
            (daysBeforeYear (year - 1).toNat + daysBeforeMonth (year - 1).toNat 12 + sd) ≤ 30
          rw [hm, daysBeforeMonth_one, daysBeforeMonth_dec, hY, hsucc]
          generalize (if leapN (year.toNat - 1) then (1 : Nat) else 0) = L
          omega
      · cases h
    · simp only [if_neg hm] at h
      split at h
      · rename_i s e hs he
        injection h with h
        subst h
        obtain ⟨hy1, hv1, hs1⟩ := mkDate_some hs
        obtain ⟨hy2, hv2, hs2⟩ := mkDate_some he
        subst hs1
        subst hs2
        obtain ⟨ha1, ha2, ha3, ha4, ha5, ha6⟩ := hv1
        obtain ⟨hb1, hb2, hb3, hb4, hb5, hb6⟩ := hv2
        have hm2 : 2 ≤ m := by omega
        have hsucc := daysBeforeMonth_succ year.toNat hm2 hb4
        have h31 := daysInMonth_le_31 year.toNat (m - 1)
        refine ⟨_, _, ⟨ha1, ha2, ha3, ha4, ha5, ha6⟩, ⟨hb1, hb2, hb3, hb4, hb5, hb6⟩,
          rfl, rfl, Or.inr ⟨rfl, Or.inl (show m - 1 < m by omega)⟩, ?_, ?_⟩
        · show daysBeforeYear year.toNat + daysBeforeMonth year.toNat (m - 1) + sd ≤
            daysBeforeYear year.toNat + daysBeforeMonth year.toNat m + ed
          rw [hsucc]
          omega
        · show daysBeforeYear year.toNat + daysBeforeMonth year.toNat m + ed -
            (daysBeforeYear year.toNat + daysBeforeMonth year.toNat (m - 1) + sd) ≤ 30
          rw [hsucc]
          omega
      · cases h
  · rename_i hle
    split at h
    · rename_i s e hs he
      injection h with h
      subst h
      obtain ⟨hy1, hv1, hs1⟩ := mkDate_some hs
      obtain ⟨hy2, hv2, hs2⟩ := mkDate_some he
      subst hs1
      subst hs2
      obtain ⟨ha1, ha2, ha3, ha4, ha5, ha6⟩ := hv1
      obtain ⟨hb1, hb2, hb3, hb4, hb5, hb6⟩ := hv2
      have h31 := daysInMonth_le_31 year.toNat m
      refine ⟨_, _, ⟨ha1, ha2, ha3, ha4, ha5, ha6⟩, ⟨hb1, hb2, hb3, hb4, hb5, hb6⟩,
        rfl, rfl, Or.inr ⟨rfl, Or.inr ⟨rfl, show sd ≤ ed by omega⟩⟩, ?_, ?_⟩
      · show daysBeforeYear year.toNat + daysBeforeMonth year.toNat m + sd ≤
          daysBeforeYear year.toNat + daysBeforeMonth year.toNat m + ed
        omega
      · show daysBeforeYear year.toNat + daysBeforeMonth year.toNat m + ed -
          (daysBeforeYear year.toNat + daysBeforeMonth year.toNat m + sd) ≤ 30
        omega
    · cases h

/-! ### Inversion of the parse loop -/

lemma parseWeeksLoop_mem {w : WeekRange} :
    ∀ (ms : List (Nat × Nat × Nat)) (year : Int) (rs : List WeekRange),
      parseWeeksLoop ms year = some rs → w ∈ rs →
      ∃ y sd ed m, processMatch y sd ed m = some w := by
  intro ms
  induction ms with
  | nil =>
    intro year rs h hw
    simp only [parseWeeksLoop] at h
    injection h with h
    subst h
    cases hw
  | cons head rest ih =>
    obtain ⟨sd, ed, m⟩ := head
    intro year rs h hw
    simp only [parseWeeksLoop] at h
    split at h
    · rename_i w0 tail hp hr
      injection h with h
      subst h
      rcases hw with _ | ⟨_, hw⟩
      · exact ⟨_, sd, ed, m, hp⟩
      · exact ih _ _ hr hw
    · cases h

lemma parseWeeksLoop_length :
    ∀ (ms : List (Nat × Nat × Nat)) (year : Int) (rs : List WeekRange),
      parseWeeksLoop ms year = some rs → rs.length = ms.length := by
  intro ms
  induction ms with
  | nil =>
    intro year rs h
    simp only [parseWeeksLoop] at h
    injection h with h
    subst h
    rfl
  | cons head rest ih =>
    obtain ⟨sd, ed, m⟩ := head
    intro year rs h
    simp only [parseWeeksLoop] at h
    split at h
    · rename_i w0 tail hp hr
      injection h with h
      subst h
      simp [ih _ _ hr]
    · cases h

lemma parseWeeksLoop_none_iff :
    ∀ (ms : List (Nat × Nat × Nat)) (year : Int),
      parseWeeksLoop ms year = none ↔ allMatchesValid ms year = false := by
  intro ms
  induction ms with
  | nil => intro year; simp [parseWeeksLoop, allMatchesValid]
  | cons head rest ih =>
    obtain ⟨sd, ed, m⟩ := head
    intro year
    simp only [parseWeeksLoop, allMatchesValid]
    cases hp : processMatch (if 7 ≤ m then year else year + 1) sd ed m with
    | none => simp
    | some w0 =>
      cases hr : parseWeeksLoop rest (if 7 ≤ m then year else year + 1) with
      | none =>
        have hf := (ih (if 7 ≤ m then year else year + 1)).mp hr
        simp [hf]
      | some tail =>
        have ht : allMatchesValid rest (if 7 ≤ m then year else year + 1) = true := by
          rcases Bool.eq_false_or_eq_true
              (allMatchesValid rest (if 7 ≤ m then year else year + 1)) with ht | hf
          · exact ht
          · rw [← ih (if 7 ≤ m then year else year + 1)] at hf
            rw [hf] at hr
            cases hr
        simp [ht]

/-! ### Round trip of the ISO rendering -/

lemma fromIso_isoDate {y m d : Nat} (h : dateValid y m d) :
    fromIso (isoDate y m d) = some ⟨y, m, d⟩ := by
  obtain ⟨h1, h2, h3, h4, h5, h6⟩ := h
  have hd31 : d ≤ 31 := le_trans h6 (daysInMonth_le_31 y m)
  have e1 : y / 1000 ≤ 9 := by omega
  have e2 : y / 100 % 10 ≤ 9 := by omega
  have e3 : y / 10 % 10 ≤ 9 := by omega
  have e4 : y % 10 ≤ 9 := by omega
  have f1 : m / 10 ≤ 9 := by omega
  have f2 : m % 10 ≤ 9 := by omega
  have g1 : d / 10 ≤ 9 := by omega
  have g2 : d % 10 ≤ 9 := by omega
  have htl : (isoDate y m d).toList =
      [dg (y / 1000), dg (y / 100 % 10), dg (y / 10 % 10), dg (y % 10), '-',
       dg (m / 10), dg (m % 10), '-', dg (d / 10), dg (d % 10)] := rfl
  have hy : 1000 * (y / 1000) + 100 * (y / 100 % 10) + 10 * (y / 10 % 10) + y % 10 = y := by
    omega
  have hm : 10 * (m / 10) + m % 10 = m := by omega
  have hd : 10 * (d / 10) + d % 10 = d := by omega
  simp only [fromIso, htl, dg_isDigit e1, dg_isDigit e2, dg_isDigit e3, dg_isDigit e4,
    dg_isDigit f1, dg_isDigit f2, dg_isDigit g1, dg_isDigit g2,
    digitVal_dg e1, digitVal_dg e2, digitVal_dg e3, digitVal_dg e4,
    digitVal_dg f1, digitVal_dg f2, digitVal_dg g1, digitVal_dg g2,
    beq_self_eq_true, Bool.and_true, Bool.true_and, if_true, hy, hm, hd]
  rw [if_pos ⟨h1, h2, h3, h4, h5, h6⟩]

/-! ### Claims -/

/-- C1: the claim states that the effective year of every match is determined
solely by that match and the anchor year (anchor for month at least 7, anchor
plus one otherwise), independently of earlier matches.  The code instead
reassigns the year variable, so the January match below raises the year to
2026 and the following October match is then anchored to 2026 instead of the
anchor 2025: this theorem evaluates parse_weeks at that failing input. -/
theorem C1_year_threading :
    parse_weeks "Del 1 al 5/01 Del 6 al 10/10" 2025 =
      some [⟨"2026-01-01", "2026-01-05"⟩, ⟨"2026-10-06", "2026-10-10"⟩] := by decide

/-- C2: for a match with start day greater than end day and month other than
1, the start date is placed in the calendar month preceding the end month,
with the same year on both dates; and parse_weeks on the quoted input yields
exactly the September-to-October range. -/
theorem C2_cross_month :
    (∀ (year : Int) (sd ed m : Nat) (w : WeekRange), ed < sd → m ≠ 1 →
      processMatch year sd ed m = some w →
      ∃ y : Nat, w.start = isoDate y (m - 1) sd ∧ w.«end» = isoDate y m ed) ∧
    parse_weeks "Del 29 al 3/10" 2025 = some [⟨"2025-09-29", "2025-10-03"⟩] := by
  constructor
  · intro year sd ed m w hlt hm h
    unfold processMatch at h
    split at h
    · split at h
      · rename_i s e hs he
        injection h with h
        subst h
        obtain ⟨hy1, hv1, hs1⟩ := mkDate_some hs
        obtain ⟨hy2, hv2, hs2⟩ := mkDate_some he
        subst hs1
        subst hs2
        exact ⟨year.toNat, rfl, rfl⟩
      · cases h
    · rename_i hle
      exact absurd hlt hle
  · decide

/-- C2 witness at the concrete cross-month match of the claim. -/
theorem C2_cross_month_witness :
    ∃ y : Nat, (WeekRange.mk "2025-09-29" "2025-10-03").start = isoDate y 9 29 ∧
      (WeekRange.mk "2025-09-29" "2025-10-03").«end» = isoDate y 10 3 :=
  C2_cross_month.1 2025 29 3 10 ⟨"2025-09-29", "2025-10-03"⟩ (by decide) (by decide) (by decide)

/-- C3: the claim states that in the cross-month case with month 1 the start
year equals the anchor year itself.  Because the year variable is threaded
across matches, the January match below first raises the year to 2026, and
the second January cross-month match then gets start year 2026 instead of
the anchor 2025: this theorem evaluates parse_weeks at that failing
input. -/
theorem C3_january_cross :
    parse_weeks "Del 1 al 5/01 Del 29 al 2/01" 2025 =
      some [⟨"2026-01-01", "2026-01-05"⟩, ⟨"2026-12-29", "2027-01-02"⟩] := by decide

/-- C4: every pair returned by parse_weeks satisfies start at most end in
the lexicographic string order on the ISO-8601 renderings. -/
theorem C4_start_le_end (ws : String) (year : Int) (rs : List WeekRange)
    (h : parse_weeks ws year = some rs) : ∀ w ∈ rs, w.start ≤ w.«end» := by
  intro w hw
  obtain ⟨y, sd, ed, m, hp⟩ := parseWeeksLoop_mem _ _ _ h hw
  obtain ⟨a, b, hva, hvb, hst, hen, hord, _, _⟩ := processMatch_shape hp
  rw [hst, hen]
  obtain ⟨ha1, ha2, ha3, ha4, ha5, ha6⟩ := hva
  obtain ⟨hb1, hb2, hb3, hb4, hb5, hb6⟩ := hvb
  have ha31 := daysInMonth_le_31 a.year a.month
  have hb31 := daysInMonth_le_31 b.year b.month
  exact isoDate_le_of ha2 hb2 (by omega) (by omega) (by omega) (by omega) hord

/-- C4 witness on a concrete parse. -/
theorem C4_start_le_end_witness : ("2025-09-09" : String) ≤ "2025-09-12" := by
  have h := C4_start_le_end "Del 9 al 12/09" 2025 [⟨"2025-09-09", "2025-09-12"⟩] (by decide)
  exact h ⟨"2025-09-09", "2025-09-12"⟩ (by simp)

/-- C5: parse_weeks fails (raises, modelled as none) exactly when some match,
processed with the year the loop threads into it, does not form valid
calendar dates; in particular a malformed match is never silently skipped,
and when all matches form valid dates no error is raised. -/
theorem C5_invalid_date_error (ws : String) (year : Int) :
    parse_weeks ws year = none ↔ allMatchesValid (findAll ws.toList) year = false :=
  parseWeeksLoop_none_iff _ _

/-- C5 witness: a range with day 30 and 31 in February makes the whole call
fail. -/
theorem C5_invalid_date_error_witness : parse_weeks "Del 30 al 31/02" 2025 = none :=
  (C5_invalid_date_error "Del 30 al 31/02" 2025).mpr (by decide)

/-- C6: parse_weeks yields exactly one week range per match of the pattern,
in input order; the empty string and any text without a match yield the
empty sequence and never an error.  The final conjunct shows a two-match
text produced in input order, September before October. -/
theorem C6_one_range_per_match :
    (∀ (ws : String) (year : Int) (rs : List WeekRange),
        parse_weeks ws year = some rs → rs.length = (findAll ws.toList).length) ∧
    (∀ year : Int, parse_weeks "" year = some []) ∧
    (∀ (ws : String) (year : Int), findAll ws.toList = [] → parse_weeks ws year = some []) ∧
    parse_weeks "x Del 9 al 12/09 y Del 6 al 10/10 z" 2025 =
      some [⟨"2025-09-09", "2025-09-12"⟩, ⟨"2025-10-06", "2025-10-10"⟩] := by
  refine ⟨?_, ?_, ?_, by decide⟩
  · intro ws year rs h
    exact parseWeeksLoop_length _ _ _ h
  · intro year
    rfl
  · intro ws year hf
    unfold parse_weeks
    rw [hf]
    rfl

/-- C6 witness on a concrete parse. -/
theorem C6_one_range_per_match_witness :
    ([⟨"2025-09-09", "2025-09-12"⟩] : List WeekRange).length =
      (findAll ("Del 9 al 12/09".toList)).length :=
  C6_one_range_per_match.1 "Del 9 al 12/09" 2025 [⟨"2025-09-09", "2025-09-12"⟩] (by decide)

/-- C7: every start or end string emitted by parse_weeks parses back to a
calendar date whose ISO rendering is the identical string. -/
theorem C7_iso_roundtrip (ws : String) (year : Int) (rs : List WeekRange)
    (h : parse_weeks ws year = some rs) :
    ∀ w ∈ rs, (∃ a, fromIso w.start = some a ∧ isoOfDate a = w.start) ∧
      (∃ b, fromIso w.«end» = some b ∧ isoOfDate b = w.«end») := by
  intro w hw
  obtain ⟨y, sd, ed, m, hp⟩ := parseWeeksLoop_mem _ _ _ h hw
  obtain ⟨a, b, hva, hvb, hst, hen, _, _, _⟩ := processMatch_shape hp
  constructor
  · refine ⟨a, ?_, hst.symm⟩
    rw [hst]
    exact fromIso_isoDate hva
  · refine ⟨b, ?_, hen.symm⟩
    rw [hen]
    exact fromIso_isoDate hvb

/-- C7 witness on a concrete parse. -/
theorem C7_iso_roundtrip_witness :
    (∃ a, fromIso ("2025-09-09" : String) = some a ∧ isoOfDate a = "2025-09-09") ∧
    (∃ b, fromIso ("2025-09-12" : String) = some b ∧ isoOfDate b = "2025-09-12") := by
  have h := C7_iso_roundtrip "Del 9 al 12/09" 2025 [⟨"2025-09-09", "2025-09-12"⟩] (by decide)
  exact h ⟨"2025-09-09", "2025-09-12"⟩ (by simp)

/-- C8: parse_weeks is a pure function of its two inputs: two calls on equal
text and equal anchor year return equal results.  In this embedding the
function has no access to any state, so the two-run determinism property is
exactly extensional equality of the two applications. -/
theorem C8_pure_deterministic (ws1 ws2 : String) (year1 year2 : Int)
    (h1 : ws1 = ws2) (h2 : year1 = year2) :
    parse_weeks ws1 year1 = parse_weeks ws2 year2 := by
  subst h1
  subst h2
  rfl

/-- C8 witness: two runs on the same concrete input agree. -/
theorem C8_pure_deterministic_witness :
    parse_weeks "Del 9 al 12/09" 2025 = parse_weeks "Del 9 al 12/09" 2025 :=
  C8_pure_deterministic _ _ _ _ rfl rfl

/-- C9: every returned range spans at most 30 days: reading the two emitted
strings back as dates, the end day number minus the start day number is
between 0 and 30. -/
theorem C9_span_at_most_30_days (ws : String) (year : Int) (rs : List WeekRange)
    (h : parse_weeks ws year = some rs) :
    ∀ w ∈ rs, ∃ a b : Date, fromIso w.start = some a ∧ fromIso w.«end» = some b ∧
      rataDie a ≤ rataDie b ∧ rataDie b - rataDie a ≤ 30 := by
  intro w hw
  obtain ⟨y, sd, ed, m, hp⟩ := parseWeeksLoop_mem _ _ _ h hw
  obtain ⟨a, b, hva, hvb, hst, hen, _, hle, hspan⟩ := processMatch_shape hp
  refine ⟨a, b, ?_, ?_, hle, hspan⟩
  · rw [hst]
    exact fromIso_isoDate hva
  · rw [hen]
    exact fromIso_isoDate hvb

/-- C9 witness on the concrete cross-month parse. -/
theorem C9_span_at_most_30_days_witness :
    ∃ a b : Date, fromIso ("2025-09-29" : String) = some a ∧
      fromIso ("2025-10-03" : String) = some b ∧
      rataDie a ≤ rataDie b ∧ rataDie b - rataDie a ≤ 30 := by
  have h := C9_span_at_most_30_days "Del 29 al 3/10" 2025
    [⟨"2025-09-29", "2025-10-03"⟩] (by decide)
  exact h ⟨"2025-09-29", "2025-10-03"⟩ (by simp)

/-- C10: a near-miss occurrence whose month part has a single digit is not
matched at all: the pattern finds no match in the text below, so parse_weeks
returns the empty sequence for every anchor year and never an error. -/
theorem C10_two_digit_month_required :
    (∀ year : Int, parse_weeks "Del 9 al 12/9" year = some []) ∧
    findAll ("Del 9 al 12/9".toList) = [] := by
  have hf : findAll ("Del 9 al 12/9".toList) = [] := by decide
  refine ⟨?_, hf⟩
  intro year
  unfold parse_weeks
  rw [hf]
  rfl

/-- C10 witness at a concrete anchor year. -/
theorem C10_two_digit_month_required_witness :
    parse_weeks "Del 9 al 12/9" 2025 = some [] :=
  C10_two_digit_month_required.1 2025
